import Mathlib

/-!
Verification development for `src/sync_canva_design.py`.

The program is embedded shallowly: Python strings become `List Char`,
bytes become `List Nat` (each entry < 256 stands for one byte), and the
effectful fetcher is given the HTTP exchange as an explicit parameter and
returns the final filesystem together with an ordered trace of its side
effects.  The relevant parts of the standard library the source calls
(`urllib.parse.urlparse`, `urllib.parse.parse_qs`, `os.path.join`,
`str.split`, `str.upper` and `str.lower` on ASCII data) are modelled from
CPython's implementations here.
-/

/-- True for ASCII letters; models `str.isascii() and str.isalpha()` as used by
`urlsplit` on a single character. -/
def isAsciiAlpha (c : Char) : Bool :=
  ( 'A' ≤ c && c ≤ 'Z') || ( 'a' ≤ c && c ≤ 'z')

/-- Characters permitted after the first character of a URL scheme, CPython's
`scheme_chars` from `urllib/parse.py`. -/
def schemeChars : List Char :=
  "abcdefghijklmnopqrstuvwxyzABCDEFGHIJKLMNOPQRSTUVWXYZ0123456789+-.".toList

/-- Python `list.index`: index of the first occurrence of `x` (returns the
length when `x` is absent, a case the source guards with `in`). -/
def pyIndex {α : Type} [DecidableEq α] (x : α) : List α → Nat
  | [] => 0
  | y :: rest => if y = x then 0 else pyIndex x rest + 1

/-- Python `str.split(sep)` for a one-character separator: splits at every
occurrence, so the empty string yields `[""]` and separators at the ends
yield empty fields. -/
def pySplit (sep : Char) (s : List Char) : List (List Char) :=
  s.foldr
    (fun c acc =>
      match acc with
      | [] => [[]]
      | cur :: rest => if c = sep then [] :: cur :: rest else (c :: cur) :: rest)
    [[]]

/-- Python `str.split(sep, 1)`: split at the first occurrence of `sep`;
`none` when `sep` does not occur. -/
def splitOnce (sep : Char) (s : List Char) : Option (List Char × List Char) :=
  match s.findIdx? (fun c => c == sep) with
  | some i => some (s.take i, s.drop (i + 1))
  | none => none

/-- Python `str.replace(a, b)` for one-character arguments. -/
def pyReplace (a b : Char) (s : List Char) : List Char :=
  s.map (fun c => if c = a then b else c)

/-- Python `str.lower()` restricted to ASCII case mapping (the source only
lowercases ASCII format names and URL schemes). -/
def pyLower (s : List Char) : List Char := s.map Char.toLower

/-- Python `str.upper()` restricted to ASCII case mapping (the source only
uppercases the ASCII format name for the wire payload). -/
def pyUpper (s : List Char) : List Char := s.map Char.toUpper

/-- Index of the last occurrence of `c`, Python `str.rfind` (as `Option`). -/
def lastIdxOf (c : Char) : List Char → Option Nat
  | [] => none
  | x :: rest =>
    match lastIdxOf c rest with
    | some i => some (i + 1)
    | none => if x = c then some 0 else none

/-- Python `str.find(c, start)` as an `Option`al absolute index. -/
def findIdxFrom (c : Char) (s : List Char) (start : Nat) : Option Nat :=
  match (s.drop start).findIdx? (fun x => x == c) with
  | some i => some (start + i)
  | none => none

/-- Result of CPython `urllib.parse.urlsplit`. -/
structure SplitResult where
  scheme : List Char
  netloc : List Char
  path : List Char
  query : List Char
  fragment : List Char
deriving DecidableEq, Repr

/-- Result of CPython `urllib.parse.urlparse` (adds the `params` component
split off the last path segment). -/
structure ParseResult where
  scheme : List Char
  netloc : List Char
  path : List Char
  params : List Char
  query : List Char
  fragment : List Char
deriving DecidableEq, Repr

/-- Fragment and query splitting at the tail of CPython `urlsplit`: the
fragment is split off at the first `#`, then the query at the first `?`. -/
def splitFragmentQuery (scheme netloc url : List Char) : SplitResult :=
  let fq :=
    match splitOnce '#' url with
    | some p => p
    | none => (url, [])
  let qv :=
    match splitOnce '?' fq.1 with
    | some p => p
    | none => (fq.1, [])
  ⟨scheme, netloc, qv.1, qv.2, fq.2⟩

/-- Model of CPython `urllib.parse.urlsplit` with default arguments: strip
leading C0-control/space characters, remove tab/CR/LF, split off a valid
scheme at the first `:`, split off the netloc after `//` (raising
`ValueError` on an unbalanced IPv6 bracket), then fragment and query.
CPython's NFKC check on non-ASCII netlocs is not modelled; it can only
reject additional non-ASCII inputs, which the caller turns into the same
absent result as the modelled IPv6 error. -/
def urlsplit (url0 : List Char) : Except (List Char) SplitResult :=
  let url1 := (url0.dropWhile (fun c => c.toNat ≤ 32)).filter
    (fun c => !(c == '\t' || c == '\r' || c == '\n'))
  let schemeSplit : List Char × List Char :=
    match url1.findIdx? (fun c => c == ':') with
    | some i =>
      if 0 < i && isAsciiAlpha (url1.headD ' ')
          && ((url1.take i).drop 1).all (fun c => schemeChars.contains c) then
        ((url1.take i).map Char.toLower, url1.drop (i + 1))
      else
        ([], url1)
    | none => ([], url1)
  let scheme := schemeSplit.1
  let url2 := schemeSplit.2
  if url2.take 2 = [ '/', '/'] then
    let rest := url2.drop 2
    let dpos :=
      match rest.findIdx? (fun c => c == '/' || c == '?' || c == '#') with
      | some i => i
      | none => rest.length
    let netloc := rest.take dpos
    let url3 := rest.drop dpos
    if (( '[' ∈ netloc) ↔ ( ']' ∈ netloc)) then
      Except.ok (splitFragmentQuery scheme netloc url3)
    else
      Except.error "Invalid IPv6 URL".toList
  else
    Except.ok (splitFragmentQuery scheme [] url2)

/-- CPython `urllib.parse._splitparams`: split `;params` off the last path
segment (searching for `;` only from the last `/` on). -/
def splitparams (url : List Char) : List Char × List Char :=
  let start := (lastIdxOf '/' url).getD 0
  match findIdxFrom ';' url start with
  | some i => (url.take i, url.drop (i + 1))
  | none => (url, [])

/-- Model of CPython `urllib.parse.urlparse` with default arguments. -/
def urlparse (url : List Char) : Except (List Char) ParseResult :=
  match urlsplit url with
  | Except.error e => Except.error e
  | Except.ok sr =>
    if ';' ∈ sr.path then
      let pp := splitparams sr.path
      Except.ok ⟨sr.scheme, sr.netloc, pp.1, pp.2, sr.query, sr.fragment⟩
    else
      Except.ok ⟨sr.scheme, sr.netloc, sr.path, [], sr.query, sr.fragment⟩

/-- Value of a hexadecimal digit, CPython `_hextobyte` key lookup. -/
def hexVal (c : Char) : Option Nat :=
  if '0' ≤ c ∧ c ≤ '9' then some (c.toNat - 48)
  else if 'A' ≤ c ∧ c ≤ 'F' then some (c.toNat - 55)
  else if 'a' ≤ c ∧ c ≤ 'f' then some (c.toNat - 87)
  else none

/-- CPython `urllib.parse.unquote_to_bytes` on an ASCII run: each `%XX` with
two hex digits becomes the byte `0xXX`; a `%` not followed by two hex digits
stays literal; every other character contributes its own code as a byte. -/
def pctBytes : List Char → List Nat
  | [] => []
  | c :: a :: b :: rest2 =>
    if c = '%' then
      match hexVal a, hexVal b with
      | some x, some y => (16 * x + y) :: pctBytes rest2
      | _, _ => 37 :: pctBytes (a :: b :: rest2)
    else
      c.toNat :: pctBytes (a :: b :: rest2)
  | c :: rest =>
    if c = '%' then 37 :: rest.map Char.toNat
    else c.toNat :: pctBytes rest

/-- Decode one UTF-8 code point (or one maximal invalid subpart, which yields
U+FFFD as CPython's `errors="replace"` handler does) from lead byte `b` and
the remaining bytes; returns the character and the bytes not consumed. -/
def utf8Step (b : Nat) (rest : List Nat) : Char × List Nat :=
  if b < 128 then (Char.ofNat b, rest)
  else if 194 ≤ b && b ≤ 223 then
    match rest with
    | c1 :: r1 =>
      if 128 ≤ c1 && c1 ≤ 191 then
        (Char.ofNat ((b - 192) * 64 + (c1 - 128)), r1)
      else (Char.ofNat 65533, rest)
    | [] => (Char.ofNat 65533, [])
  else if 224 ≤ b && b ≤ 239 then
    let lo1 := if b = 224 then 160 else 128
    let hi1 := if b = 237 then 159 else 191
    match rest with
    | c1 :: r1 =>
      if lo1 ≤ c1 && c1 ≤ hi1 then
        match r1 with
        | c2 :: r2 =>
          if 128 ≤ c2 && c2 ≤ 191 then
            (Char.ofNat ((b - 224) * 4096 + (c1 - 128) * 64 + (c2 - 128)), r2)
          else (Char.ofNat 65533, r1)
        | [] => (Char.ofNat 65533, [])
      else (Char.ofNat 65533, rest)
    | [] => (Char.ofNat 65533, [])
  else if 240 ≤ b && b ≤ 244 then
    let lo1 := if b = 240 then 144 else 128
    let hi1 := if b = 244 then 143 else 191
    match rest with
    | c1 :: r1 =>
      if lo1 ≤ c1 && c1 ≤ hi1 then
        match r1 with
        | c2 :: r2 =>
          if 128 ≤ c2 && c2 ≤ 191 then
            match r2 with
            | c3 :: r3 =>
              if 128 ≤ c3 && c3 ≤ 191 then
                (Char.ofNat ((b - 240) * 262144 + (c1 - 128) * 4096
                    + (c2 - 128) * 64 + (c3 - 128)), r3)
              else (Char.ofNat 65533, r2)
            | [] => (Char.ofNat 65533, [])
          else (Char.ofNat 65533, r1)
        | [] => (Char.ofNat 65533, [])
      else (Char.ofNat 65533, rest)
    | [] => (Char.ofNat 65533, [])
  else (Char.ofNat 65533, rest)

/-- Python `bytes.decode("utf-8", errors="replace")`. -/
def utf8DecodeAux : Nat → List Nat → List Char
  | 0, _ => []
  | _, [] => []
  | fuel + 1, b :: rest =>
    (utf8Step b rest).1 :: utf8DecodeAux fuel (utf8Step b rest).2

/-- Python `bytes.decode("utf-8", errors="replace")`.  Recursion is driven by
a step count rather than well-foundedness so that the definition reduces in
the kernel; every step consumes at least one byte, so `l.length` steps always
exhaust the input. -/
def utf8Decode (l : List Nat) : List Char :=
  utf8DecodeAux l.length l

def unquoteAux : Nat → List Char → List Char
  | 0, _ => []
  | _, [] => []
  | fuel + 1, c :: rest =>
    if c.toNat < 128 then
      utf8Decode (pctBytes (c :: rest.takeWhile (fun x => x.toNat < 128)))
        ++ unquoteAux fuel (rest.dropWhile (fun x => x.toNat < 128))
    else
      c :: unquoteAux fuel rest

/-- CPython `urllib.parse.unquote` with default arguments: maximal ASCII runs
are percent-decoded to bytes and those bytes UTF-8-decoded with the
`replace` error handler; non-ASCII characters pass through untouched.
Recursion is again driven by a sufficient step count (each step consumes at
least one character). -/
def unquote (s : List Char) : List Char :=
  unquoteAux s.length s

/-- One field of CPython `urllib.parse.parse_qsl` with default arguments:
empty fields and fields without `=` or with an empty raw value are dropped;
name and value have `+` turned into spaces and are percent-decoded. -/
def qslField (nv : List Char) : Option (List Char × List Char) :=
  if nv = [] then none
  else
    match splitOnce '=' nv with
    | none => none
    | some p =>
      if p.2 = [] then none
      else some (unquote (pyReplace '+' ' ' p.1), unquote (pyReplace '+' ' ' p.2))

/-- CPython `urllib.parse.parse_qsl` with default arguments. -/
def parse_qsl (qs : List Char) : List (List Char × List Char) :=
  (if qs = [] then [] else pySplit '&' qs).filterMap qslField

/-- Lookup in an insertion-ordered association list, Python `dict` access. -/
def assocGet {α β : Type} [DecidableEq α] (k : α) : List (α × β) → Option β
  | [] => none
  | p :: rest => if p.1 = k then some p.2 else assocGet k rest

/-- Append `v` to the value list of key `k`, adding the key at the end when
absent — the loop body of CPython `parse_qs` over a `dict`. -/
def dictAppend {α β : Type} [DecidableEq α] :
    List (α × List β) → α → β → List (α × List β)
  | [], k, v => [(k, [v])]
  | p :: rest, k, v =>
    if p.1 = k then (p.1, p.2 ++ [v]) :: rest else p :: dictAppend rest k v

/-- CPython `urllib.parse.parse_qs` with default arguments. -/
def parse_qs (qs : List Char) : List (List Char × List (List Char)) :=
  (parse_qsl qs).foldl (fun d q => dictAppend d q.1 q.2) []

/-- Strategy 1 of `extract_design_id` (src/sync_canva_design.py:26-34): split
the URL path on `/`; when the literal segment `design` occurs and is not the
last segment, return the segment immediately after its first occurrence
(`get?` is `none` exactly when `design_index < len(path_parts)` fails, in
which case the source falls through to the query-string fallback). -/
def path_strategy (path : List Char) : Option (List Char) :=
  let path_parts := pySplit '/' path
  if "design".toList ∈ path_parts then
    path_parts.get? (pyIndex "design".toList path_parts + 1)
  else
    none

/-- Model of `extract_design_id` (src/sync_canva_design.py:19-47).  The
Python `try/except` around the body catches every parsing error and returns
`None`; accordingly a `urlparse` error maps to `none`.  The unreachable
`IndexError` on an empty `dict` value list is likewise mapped to `none`. -/
def extract_design_id (canva_url : List Char) : Option (List Char) :=
  match urlparse canva_url with
  | Except.error _ => none
  | Except.ok parsed_url =>
    match path_strategy parsed_url.path with
    | some design_id => some design_id
    | none =>
      match assocGet "utm_content".toList (parse_qs parsed_url.query) with
      | some (v :: _) => some v
      | _ => none

/-- Local filesystem state: file contents keyed by path, plus the set of
directories that exist.  `os.makedirs` is modelled as recording the requested
directory path (intermediate parents are abstracted away; only the output
directory itself is ever observed). -/
structure FileSystem where
  files : List (List Char × List Nat)
  dirs : List (List Char)
deriving DecidableEq, Repr

/-- Replace the value at key `k`, or add the entry at the end — the behaviour
of `open(path, "wb")` followed by a full write on a string-keyed store. -/
def assocSet {α β : Type} [DecidableEq α] : List (α × β) → α → β → List (α × β)
  | [], k, v => [(k, v)]
  | p :: rest, k, v =>
    if p.1 = k then (k, v) :: rest else p :: assocSet rest k v

/-- Contents of the file at `p`, if it exists. -/
def fsLookup (p : List Char) (fs : FileSystem) : Option (List Nat) :=
  assocGet p fs.files

/-- Model of `open(path, "wb"); f.write(content)`: create or overwrite the
whole file. -/
def fsWrite (p : List Char) (content : List Nat) (fs : FileSystem) : FileSystem :=
  ⟨assocSet fs.files p content, fs.dirs⟩

/-- Model of `os.makedirs(dir, exist_ok=True)`. -/
def makedirs (d : List Char) (fs : FileSystem) : FileSystem :=
  if d ∈ fs.dirs then fs else ⟨fs.files, fs.dirs ++ [d]⟩

/-- Model of POSIX `os.path.join` on two components. -/
def osPathJoin (a b : List Char) : List Char :=
  if b.take 1 = [ '/'] then b
  else if a = [] ∨ a.getLast? = some '/' then a ++ b
  else a ++ '/' :: b

/-- An HTTP request as `requests.post(api_url, json=payload, headers=headers)`
issues it: method, URL, header list and the JSON body's key/value pairs. -/
structure HttpRequest where
  method : List Char
  url : List Char
  headers : List (List Char × List Char)
  jsonBody : List (List Char × List Char)
deriving DecidableEq, Repr

/-- An HTTP response as seen by the source: numeric status and raw body. -/
structure HttpResponse where
  status_code : Nat
  content : List Nat
deriving DecidableEq, Repr

/-- Outcome of the one network call: either a response object or a transport
error (`requests.exceptions.ConnectionError` and kin, all subclasses of
`RequestException`). -/
inductive RequestOutcome where
  | response (r : HttpResponse)
  | connectionError
deriving DecidableEq, Repr

/-- Observable side effects of a run, in program order. -/
inductive Event where
  | makedirs (dir : List Char)
  | httpPost (req : HttpRequest)
  | fileWrite (path : List Char) (content : List Nat)
deriving DecidableEq, Repr

/-- True exactly on HTTP-request events. -/
def isHttpPost : Event → Bool
  | Event.httpPost _ => true
  | _ => false

/-- The export request built by `download_canva_design`
(src/sync_canva_design.py:55-65): POST to the endpoint templated with the
identifier, bearer Authorization and JSON Content-Type headers, JSON body
with the uppercased format and the fixed `"all"` page selection. -/
def export_request (design_id api_key format : List Char) : HttpRequest :=
  { method := "POST".toList
    url := "https://api.canva.com/v1/designs/".toList ++ design_id ++ "/export".toList
    headers :=
      [("Authorization".toList, "Bearer ".toList ++ api_key),
       ("Content-Type".toList, "application/json".toList)]
    jsonBody :=
      [("format".toList, pyUpper format), ("pages".toList, "all".toList)] }

/-- Result of one fetcher run: the returned value (`output_path` or `None`),
the final filesystem, and the ordered trace of side effects. -/
structure RunResult where
  result : Option (List Char)
  fs : FileSystem
  events : List Event
deriving DecidableEq, Repr

/-- Model of `download_canva_design` (src/sync_canva_design.py:49-89).  The
output directory is created before the request is sent; the request is always
sent exactly once.  `response.raise_for_status()` raises `HTTPError` (a
`RequestException`) exactly for status codes in [400, 600); that exception,
like a transport error, is caught by the `except` clause, which logs and
returns `None` without touching the file.  On every other status the body is
written verbatim to `os.path.join(output_dir, f"{design_id}.{format.lower()}")`
and that path is returned. -/
def download_canva_design (design_id api_key output_dir format : List Char)
    (fs : FileSystem) (http : RequestOutcome) : RunResult :=
  let req := export_request design_id api_key format
  let fs1 := makedirs output_dir fs
  let output_filename := design_id ++ '.' :: pyLower format
  let output_path := osPathJoin output_dir output_filename
  match http with
  | RequestOutcome.connectionError =>
    ⟨none, fs1, [Event.makedirs output_dir, Event.httpPost req]⟩
  | RequestOutcome.response r =>
    if 400 ≤ r.status_code ∧ r.status_code < 600 then
      ⟨none, fs1, [Event.makedirs output_dir, Event.httpPost req]⟩
    else
      ⟨some output_path, fsWrite output_path r.content fs1,
        [Event.makedirs output_dir, Event.httpPost req,
         Event.fileWrite output_path r.content]⟩

/-- Parsed command line (src/sync_canva_design.py:92-98): positional URL,
optional `--api-key`, `--output-dir` (default `canva_designs`) and
`--format` (argparse restricts it to `pdf`, `png` or `jpg`, default `pdf`). -/
structure Args where
  url : List Char
  api_key : Option (List Char)
  output_dir : List Char
  format : List Char
deriving DecidableEq, Repr

/-- Model of `args.api_key or os.environ.get("CANVA_API_KEY")`
(src/sync_canva_design.py:101): Python `or` falls through on a falsy
(absent or empty) flag value. -/
def resolve_api_key (flag env : Option (List Char)) : Option (List Char) :=
  match flag with
  | some k => if k = [] then env else some k
  | none => env

/-- How a run of `main` ended (src/sync_canva_design.py:91-114): the three
top-level stops.  All of them return normally; only log lines differ. -/
inductive MainOutcome where
  | missingApiKey
  | extractFailed
  | synced (download_result : Option (List Char))
deriving DecidableEq, Repr

/-- Model of `main` (src/sync_canva_design.py:91-114): resolve the
credential (missing or empty flag and environment variable stop the run
before anything else happens), extract the identifier (`if not design_id`
treats both `None` and the empty string as failure), then run the fetcher. -/
def run_main (args : Args) (env_api_key : Option (List Char))
    (fs : FileSystem) (http : RequestOutcome) :
    MainOutcome × FileSystem × List Event :=
  match resolve_api_key args.api_key env_api_key with
  | none => (MainOutcome.missingApiKey, fs, [])
  | some api_key =>
    if api_key = [] then (MainOutcome.missingApiKey, fs, [])
    else
      match extract_design_id args.url with
      | none => (MainOutcome.extractFailed, fs, [])
      | some design_id =>
        if design_id = [] then (MainOutcome.extractFailed, fs, [])
        else
          let r := download_canva_design design_id api_key
            args.output_dir args.format fs http
          (MainOutcome.synced r.result, r.fs, r.events)

/-- Decidable equality for `Except`, needed to evaluate hypotheses about
`urlparse` results on concrete inputs. -/
instance {ε α : Type} [DecidableEq ε] [DecidableEq α] :
    DecidableEq (Except ε α) := fun x y =>
  match x, y with
  | Except.ok a, Except.ok b =>
    if h : a = b then isTrue (by rw [h])
    else isFalse (by intro hc; injection hc; contradiction)
  | Except.error a, Except.error b =>
    if h : a = b then isTrue (by rw [h])
    else isFalse (by intro hc; injection hc; contradiction)
  | Except.ok _, Except.error _ => isFalse (by intro hc; injection hc)
  | Except.error _, Except.ok _ => isFalse (by intro hc; injection hc)

/-- Holds when neither extraction strategy yields an identifier on `url`:
the URL fails to parse, or (it parses and) the path strategy falls through
and the parsed query string has no `utm_content` entry with at least one
value. -/
def no_identifier_found (url : List Char) : Bool :=
  match urlparse url with
  | Except.error _ => true
  | Except.ok pr =>
    (path_strategy pr.path).isNone &&
      (match assocGet "utm_content".toList (parse_qs pr.query) with
       | some (_ :: _) => false
       | _ => true)

theorem assocGet_assocSet {α β : Type} [DecidableEq α]
    (l : List (α × β)) (k : α) (v : β) :
    assocGet k (assocSet l k v) = some v := by
  induction l with
  | nil => simp [assocSet, assocGet]
  | cons p t ih =>
    by_cases h : p.1 = k
    · simp [assocSet, assocGet, h]
    · simp [assocSet, assocGet, h, ih]

theorem makedirs_files (d : List Char) (fs : FileSystem) :
    (makedirs d fs).files = fs.files := by
  unfold makedirs
  split <;> rfl

theorem mem_makedirs_dirs (d : List Char) (fs : FileSystem) :
    d ∈ (makedirs d fs).dirs := by
  unfold makedirs
  split <;> simp_all

theorem download_events_take_two (design_id api_key output_dir format : List Char)
    (fs : FileSystem) (http : RequestOutcome) :
    (download_canva_design design_id api_key output_dir format fs http).events.take 2
      = [Event.makedirs output_dir,
         Event.httpPost (export_request design_id api_key format)] := by
  unfold download_canva_design
  cases http with
  | connectionError => rfl
  | response r => dsimp only; split <;> rfl

theorem download_events_filter_post
    (design_id api_key output_dir format : List Char)
    (fs : FileSystem) (http : RequestOutcome) :
    (download_canva_design design_id api_key output_dir format fs http).events.filter
        isHttpPost
      = [Event.httpPost (export_request design_id api_key format)] := by
  unfold download_canva_design
  cases http with
  | connectionError => simp [List.filter, isHttpPost]
  | response r =>
    dsimp only
    split <;> simp [List.filter, isHttpPost]

theorem download_dir_created (design_id api_key output_dir format : List Char)
    (fs : FileSystem) (http : RequestOutcome) :
    output_dir ∈
      (download_canva_design design_id api_key output_dir format fs http).fs.dirs := by
  unfold download_canva_design
  cases http with
  | connectionError => exact mem_makedirs_dirs _ _
  | response r =>
    dsimp only
    split
    · exact mem_makedirs_dirs _ _
    · exact mem_makedirs_dirs _ _

theorem pctBytes_ne_nil (c : Char) (rest : List Char) :
    pctBytes (c :: rest) ≠ [] := by
  rcases rest with _ | ⟨a, _ | ⟨b, r2⟩⟩
  · unfold pctBytes; split <;> simp
  · unfold pctBytes; split <;> simp
  · unfold pctBytes
    split
    · rcases hexVal a <;> rcases hexVal b <;> simp
    · simp

theorem utf8Decode_ne_nil (b : Nat) (rest : List Nat) :
    utf8Decode (b :: rest) ≠ [] := by
  show utf8DecodeAux (b :: rest).length (b :: rest) ≠ []
  rw [List.length_cons, utf8DecodeAux]
  simp

theorem unquote_ne_nil (s : List Char) (h : s ≠ []) : unquote s ≠ [] := by
  match s with
  | [] => exact absurd rfl h
  | c :: rest =>
    show unquoteAux (c :: rest).length (c :: rest) ≠ []
    rw [List.length_cons, unquoteAux]
    split
    · have h1 := pctBytes_ne_nil c (rest.takeWhile (fun x => x.toNat < 128))
      match hp : pctBytes (c :: rest.takeWhile (fun x => x.toNat < 128)) with
      | [] => exact absurd hp h1
      | b :: bs =>
        have h2 := utf8Decode_ne_nil b bs
        simp [List.append_eq_nil]
        intro h3
        exact absurd h3 h2
    · simp

theorem pyReplace_ne_nil (a b : Char) (s : List Char) (h : s ≠ []) :
    pyReplace a b s ≠ [] := by
  unfold pyReplace
  simpa using h

theorem qslField_value_ne_nil (nv n v : List Char)
    (h : qslField nv = some (n, v)) : v ≠ [] := by
  unfold qslField at h
  by_cases h0 : nv = []
  · rw [if_pos h0] at h; exact absurd h (by simp)
  · rw [if_neg h0] at h
    match hs : splitOnce '=' nv with
    | none => rw [hs] at h; exact absurd h (by simp)
    | some p =>
      rw [hs] at h
      dsimp only at h
      by_cases h2 : p.2 = []
      · rw [if_pos h2] at h; exact absurd h (by simp)
      · rw [if_neg h2] at h
        simp only [Option.some.injEq, Prod.mk.injEq] at h
        obtain ⟨-, hv⟩ := h
        rw [← hv]
        exact unquote_ne_nil _ (pyReplace_ne_nil _ _ _ h2)

theorem parse_qsl_value_ne_nil (qs : List Char) :
    ∀ q ∈ parse_qsl qs, q.2 ≠ [] := by
  intro q hq
  unfold parse_qsl at hq
  rw [List.mem_filterMap] at hq
  obtain ⟨nv, _, hf⟩ := hq
  exact qslField_value_ne_nil nv q.1 q.2 hf

theorem dictAppend_values {α β : Type} [DecidableEq α] {P : β → Prop}
    (d : List (α × List β)) (k : α) (v : β)
    (hd : ∀ p ∈ d, ∀ x ∈ p.2, P x) (hv : P v) :
    ∀ p ∈ dictAppend d k v, ∀ x ∈ p.2, P x := by
  induction d with
  | nil =>
    intro p hp x hx
    simp [dictAppend] at hp
    subst hp
    simp at hx
    subst hx
    exact hv
  | cons a t ih =>
    intro p hp x hx
    rw [dictAppend] at hp
    split at hp
    · rcases List.mem_cons.mp hp with h1 | h1
      · subst h1
        simp at hx
        rcases hx with hx | hx
        · exact hd a (List.mem_cons_self a t) x hx
        · subst hx; exact hv
      · exact hd p (List.mem_cons_of_mem a h1) x hx
    · rcases List.mem_cons.mp hp with h1 | h1
      · subst h1
        exact hd p (List.mem_cons_self p t) x hx
      · exact ih (fun q hq => hd q (List.mem_cons_of_mem a hq)) p h1 x hx

theorem foldl_dictAppend_values {α β : Type} [DecidableEq α] {P : β → Prop} :
    ∀ (pairs : List (α × β)) (d : List (α × List β)),
      (∀ q ∈ pairs, P q.2) → (∀ p ∈ d, ∀ x ∈ p.2, P x) →
      ∀ p ∈ pairs.foldl (fun d q => dictAppend d q.1 q.2) d, ∀ x ∈ p.2, P x := by
  intro pairs
  induction pairs with
  | nil => intro d _ hd; simpa using hd
  | cons q t ih =>
    intro d hpairs hd p hp x hx
    rw [List.foldl_cons] at hp
    exact ih (dictAppend d q.1 q.2)
      (fun q1 hq1 => hpairs q1 (List.mem_cons_of_mem q hq1))
      (dictAppend_values d q.1 q.2 hd (hpairs q (List.mem_cons_self q t)))
      p hp x hx

theorem parse_qs_values_ne_nil (qs : List Char) :
    ∀ p ∈ parse_qs qs, ∀ x ∈ p.2, x ≠ [] := by
  unfold parse_qs
  exact foldl_dictAppend_values (parse_qsl qs) []
    (parse_qsl_value_ne_nil qs) (by simp)

theorem assocGet_mem {α β : Type} [DecidableEq α]
    (l : List (α × β)) (k : α) (v : β) (h : assocGet k l = some v) :
    (k, v) ∈ l := by
  induction l with
  | nil => simp [assocGet] at h
  | cons p t ih =>
    rw [assocGet] at h
    split at h
    · next heq =>
      injection h with h1
      subst h1
      rcases p with ⟨pk, pv⟩
      simp at heq
      subst heq
      exact List.mem_cons_self _ _
    · exact List.mem_cons_of_mem p (ih h)

/-- Claim C2 (confirmed): for every URL whose parsed path, split into
segments, contains the marker segment `design` followed by a further
segment `t` (the segment right after the first occurrence of the marker),
the Identifier Extractor returns exactly `t`.  The conclusion is computed
from the path components alone, so the query string is not consulted. -/
theorem extract_design_id_path_marker (url : List Char) (pr : ParseResult)
    (t : List Char) (h : urlparse url = Except.ok pr)
    (hm : "design".toList ∈ pySplit '/' pr.path)
    (ht : (pySplit '/' pr.path).get?
        (pyIndex "design".toList (pySplit '/' pr.path) + 1) = some t) :
    extract_design_id url = some t := by
  simp only [extract_design_id, h]
  unfold path_strategy
  simp only [if_pos hm, ht]

theorem extract_design_id_path_marker_witness :
    extract_design_id "https://example.com/design/ABC123/view".toList
      = some "ABC123".toList :=
  extract_design_id_path_marker _
    ⟨"https".toList, "example.com".toList, "/design/ABC123/view".toList,
      [], [], []⟩
    _ (by decide) (by decide) (by decide)

/-- Claim C3 (confirmed): for every URL on which the path strategy yields
nothing (no `design` marker segment, or the marker is the last segment) and
whose parsed query string carries a `utm_content` parameter, the Identifier
Extractor returns exactly the first value of that parameter. -/
theorem extract_design_id_query_fallback (url : List Char) (pr : ParseResult)
    (v : List Char) (vs : List (List Char))
    (h : urlparse url = Except.ok pr)
    (hp : path_strategy pr.path = none)
    (hq : assocGet "utm_content".toList (parse_qs pr.query) = some (v :: vs)) :
    extract_design_id url = some v := by
  simp only [extract_design_id, h, hp, hq]

theorem extract_design_id_query_fallback_witness :
    extract_design_id "https://example.com/page?utm_content=XYZ789".toList
      = some "XYZ789".toList :=
  extract_design_id_query_fallback _
    ⟨"https".toList, "example.com".toList, "/page".toList,
      [], "utm_content=XYZ789".toList, []⟩
    "XYZ789".toList [] (by decide) (by decide) (by decide)

/-- Claim C4 (confirmed): for every input string on which neither strategy
yields an identifier — including malformed URLs, where `urlparse` raises and
the surrounding `try/except` takes over — the Identifier Extractor returns
`none`.  The extractor is a total function into `Option`, so no error
escapes it. -/
theorem extract_design_id_none_when_no_strategy (url : List Char)
    (h : no_identifier_found url = true) :
    extract_design_id url = none := by
  unfold no_identifier_found at h
  unfold extract_design_id
  cases hu : urlparse url with
  | error e => rfl
  | ok pr =>
    rw [hu] at h
    dsimp only at h ⊢
    rw [Bool.and_eq_true] at h
    obtain ⟨h1, h2⟩ := h
    rw [Option.isNone_iff_eq_none] at h1
    rw [h1]
    dsimp only
    cases hq : assocGet "utm_content".toList (parse_qs pr.query) with
    | none => rfl
    | some l =>
      cases l with
      | nil => rfl
      | cons v vs => rw [hq] at h2; simp at h2

theorem extract_design_id_none_when_no_strategy_witness :
    extract_design_id "https://example.com/about".toList = none :=
  extract_design_id_none_when_no_strategy _ (by decide)

/-- Claim C6 counterexample: on `https://www.canva.com/design//view` the
marker is followed by an empty segment, and the Identifier Extractor
returns a present result (not `none`) that is the empty string — refuting
"whenever the Extractor returns a result, the returned identifier is
non-empty" at this input. -/
theorem extract_design_id_empty_result :
    extract_design_id "https://www.canva.com/design//view".toList = some []
      ∧ extract_design_id "https://www.canva.com/design//view".toList ≠ none := by
  exact ⟨by decide, by decide⟩

/-- Claim C6 (amended): an identifier produced by the query-parameter
strategy — that is, whenever the path strategy yields nothing — is always
non-empty; only the path strategy can return the empty string, namely when
the segment immediately after the marker is empty (and `main`'s falsy check
then treats that as an extraction failure). -/
theorem extract_design_id_query_result_nonempty (url : List Char)
    (pr : ParseResult) (s : List Char)
    (h : urlparse url = Except.ok pr)
    (hp : path_strategy pr.path = none)
    (hs : extract_design_id url = some s) : s ≠ [] := by
  unfold extract_design_id at hs
  rw [h] at hs
  dsimp only at hs
  rw [hp] at hs
  dsimp only at hs
  cases hq : assocGet "utm_content".toList (parse_qs pr.query) with
  | none => rw [hq] at hs; exact absurd hs (by simp)
  | some l =>
    rw [hq] at hs
    cases l with
    | nil => exact absurd hs (by simp)
    | cons v vs =>
      dsimp only at hs
      rw [Option.some.injEq] at hs
      subst hs
      exact parse_qs_values_ne_nil pr.query ("utm_content".toList, v :: vs)
        (assocGet_mem _ _ _ hq) v (List.mem_cons_self v vs)

theorem extract_design_id_query_result_nonempty_witness :
    "QQ77".toList ≠ ([] : List Char) :=
  extract_design_id_query_result_nonempty
    "https://example.com/home?utm_content=QQ77".toList
    ⟨"https".toList, "example.com".toList, "/home".toList,
      [], "utm_content=QQ77".toList, []⟩
    "QQ77".toList (by decide) (by decide) (by decide)

/-- Claim C1 counterexample: with identifier `/evil` (reachable, e.g., from a
percent-encoded `utm_content` value), output directory `canva_designs` and
format `pdf`, a successful 200 response is written to `/evil.pdf` — the
POSIX join discards the output directory — so no file exists at the literal
`<output_dir>/<identifier>.<format-lowercased>` path
`canva_designs//evil.pdf`, and the returned path is not that path either. -/
theorem download_absolute_identifier_escapes_output_dir :
    (download_canva_design "/evil".toList "KEY".toList "canva_designs".toList
        "pdf".toList ⟨[], []⟩ (RequestOutcome.response ⟨200, [7]⟩)).result
      ≠ some "canva_designs//evil.pdf".toList ∧
    fsLookup "canva_designs//evil.pdf".toList
        (download_canva_design "/evil".toList "KEY".toList "canva_designs".toList
          "pdf".toList ⟨[], []⟩ (RequestOutcome.response ⟨200, [7]⟩)).fs
      = none ∧
    (download_canva_design "/evil".toList "KEY".toList "canva_designs".toList
        "pdf".toList ⟨[], []⟩ (RequestOutcome.response ⟨200, [7]⟩)).result
      = some "/evil.pdf".toList ∧
    fsLookup "/evil.pdf".toList
        (download_canva_design "/evil".toList "KEY".toList "canva_designs".toList
          "pdf".toList ⟨[], []⟩ (RequestOutcome.response ⟨200, [7]⟩)).fs
      = some [7] := by
  exact ⟨by decide, by decide, by decide, by decide⟩

/-- Claim C1 (amended): on a 2xx response with body `B`, the Design Fetcher
writes a file whose contents are byte-for-byte `B` at the POSIX join of the
output directory with `<identifier>.<format-lowercased>`, and returns that
path; the joined path equals the literal
`<output_dir>/<identifier>.<format-lowercased>` whenever the output
directory is non-empty and does not end in `/` and the identifier does not
begin with `/`. -/
theorem download_success_writes_payload
    (design_id api_key output_dir format : List Char)
    (fs : FileSystem) (r : HttpResponse)
    (h2xx : 200 ≤ r.status_code ∧ r.status_code < 300) :
    (download_canva_design design_id api_key output_dir format fs
        (RequestOutcome.response r)).result
      = some (osPathJoin output_dir (design_id ++ '.' :: pyLower format)) ∧
    fsLookup (osPathJoin output_dir (design_id ++ '.' :: pyLower format))
        (download_canva_design design_id api_key output_dir format fs
          (RequestOutcome.response r)).fs
      = some r.content ∧
    (output_dir ≠ [] → output_dir.getLast? ≠ some '/' →
      design_id.take 1 ≠ [ '/'] →
      osPathJoin output_dir (design_id ++ '.' :: pyLower format)
        = output_dir ++ '/' :: design_id ++ '.' :: pyLower format) := by
  have hcond : ¬(400 ≤ r.status_code ∧ r.status_code < 600) := by omega
  refine ⟨?_, ?_, ?_⟩
  · simp only [download_canva_design]
    rw [if_neg hcond]
  · simp only [download_canva_design]
    rw [if_neg hcond]
    exact assocGet_assocSet _ _ _
  · intro h1 h2 h3
    have hb : ¬((design_id ++ '.' :: pyLower format).take 1 = [ '/']) := by
      cases design_id with
      | nil => simp
      | cons a t =>
        simp only [List.cons_append, List.take_succ_cons, List.take_zero]
        simp only [List.take_succ_cons, List.take_zero] at h3
        exact h3
    have ha : ¬(output_dir = [] ∨ output_dir.getLast? = some '/') := by
      rintro (hc | hc)
      · exact h1 hc
      · exact h2 hc
    unfold osPathJoin
    rw [if_neg hb, if_neg ha]
    simp

theorem download_success_writes_payload_witness :
    (200 ≤ 200 ∧ 200 < 300) ∧
    ((download_canva_design "ABC".toList "KEY".toList "out".toList "pdf".toList
        ⟨[], []⟩ (RequestOutcome.response ⟨200, [9, 8]⟩)).result
      = some (osPathJoin "out".toList ("ABC".toList ++ '.' :: pyLower "pdf".toList)) ∧
    fsLookup (osPathJoin "out".toList ("ABC".toList ++ '.' :: pyLower "pdf".toList))
        (download_canva_design "ABC".toList "KEY".toList "out".toList "pdf".toList
          ⟨[], []⟩ (RequestOutcome.response ⟨200, [9, 8]⟩)).fs
      = some [9, 8] ∧
    ("out".toList ≠ [] → ("out".toList).getLast? ≠ some '/' →
      ("ABC".toList).take 1 ≠ [ '/'] →
      osPathJoin "out".toList ("ABC".toList ++ '.' :: pyLower "pdf".toList)
        = "out".toList ++ '/' :: "ABC".toList ++ '.' :: pyLower "pdf".toList)) :=
  ⟨by decide,
   download_success_writes_payload "ABC".toList "KEY".toList "out".toList
     "pdf".toList ⟨[], []⟩ ⟨200, [9, 8]⟩ (by decide)⟩

/-- Claim C5 counterexample: a mocked `304` response is not a 2xx status,
yet `raise_for_status` does not raise on it, so the fetcher writes the body
to `dir/ABC.pdf` and returns that path instead of an absent result —
refuting "non-2xx status implies absent result and no file" at this
input. -/
theorem download_status_304_still_writes :
    (download_canva_design "ABC".toList "KEY".toList "dir".toList "pdf".toList
        ⟨[], []⟩ (RequestOutcome.response ⟨304, [1, 2]⟩)).result ≠ none ∧
    (download_canva_design "ABC".toList "KEY".toList "dir".toList "pdf".toList
        ⟨[], []⟩ (RequestOutcome.response ⟨304, [1, 2]⟩)).result
      = some "dir/ABC.pdf".toList ∧
    fsLookup "dir/ABC.pdf".toList
        (download_canva_design "ABC".toList "KEY".toList "dir".toList "pdf".toList
          ⟨[], []⟩ (RequestOutcome.response ⟨304, [1, 2]⟩)).fs
      = some [1, 2] := by
  exact ⟨by decide, by decide, by decide⟩

/-- Claim C5 (amended): on a transport error or a 4xx/5xx status — the
statuses `raise_for_status` actually raises on — the Design Fetcher returns
an absent result, leaves every file exactly as it was, and emits no write
event; there is no partial write.  (Statuses in 1xx and 3xx are treated as
success by the code, see the counterexample.) -/
theorem download_failure_no_write
    (design_id api_key output_dir format : List Char)
    (fs : FileSystem) (http : RequestOutcome)
    (hfail : http = RequestOutcome.connectionError ∨
      ∃ r, http = RequestOutcome.response r ∧
        400 ≤ r.status_code ∧ r.status_code < 600) :
    (download_canva_design design_id api_key output_dir format fs http).result
        = none ∧
    (download_canva_design design_id api_key output_dir format fs http).fs.files
        = fs.files ∧
    ∀ p c, Event.fileWrite p c ∉
      (download_canva_design design_id api_key output_dir format fs http).events := by
  rcases hfail with h | ⟨r, hr, hcode⟩
  · subst h
    refine ⟨rfl, makedirs_files _ _, ?_⟩
    intro p c
    simp [download_canva_design]
  · subst hr
    refine ⟨?_, ?_, ?_⟩
    · simp only [download_canva_design]
      rw [if_pos hcode]
    · simp only [download_canva_design]
      rw [if_pos hcode]
      exact makedirs_files _ _
    · intro p c
      simp only [download_canva_design]
      rw [if_pos hcode]
      simp

theorem download_failure_no_write_witness :
    ((RequestOutcome.response (⟨404, [9]⟩ : HttpResponse))
        = RequestOutcome.connectionError ∨
      ∃ r, RequestOutcome.response (⟨404, [9]⟩ : HttpResponse)
          = RequestOutcome.response r ∧
        400 ≤ r.status_code ∧ r.status_code < 600) ∧
    ((download_canva_design "ABC".toList "KEY".toList "dir".toList "pdf".toList
        ⟨[("old".toList, [5])], []⟩
        (RequestOutcome.response ⟨404, [9]⟩)).result = none ∧
    (download_canva_design "ABC".toList "KEY".toList "dir".toList "pdf".toList
        ⟨[("old".toList, [5])], []⟩
        (RequestOutcome.response ⟨404, [9]⟩)).fs.files = [("old".toList, [5])] ∧
    ∀ p c, Event.fileWrite p c ∉
      (download_canva_design "ABC".toList "KEY".toList "dir".toList "pdf".toList
        ⟨[("old".toList, [5])], []⟩
        (RequestOutcome.response ⟨404, [9]⟩)).events) :=
  ⟨Or.inr ⟨⟨404, [9]⟩, rfl, by decide⟩,
   download_failure_no_write "ABC".toList "KEY".toList "dir".toList "pdf".toList
     ⟨[("old".toList, [5])], []⟩ _ (Or.inr ⟨⟨404, [9]⟩, rfl, by decide⟩)⟩

/-- Claim C7 (confirmed): running the Design Fetcher twice in sequence with
the same identifier (and directory/format), first receiving body `B1` and
then `B2`, leaves the output file containing exactly `B2` — the second
write overwrites, it does not append — and the second run again returns the
output path. -/
theorem download_twice_overwrites
    (design_id api_key output_dir format : List Char)
    (fs : FileSystem) (r1 r2 : HttpResponse)
    (h1 : 200 ≤ r1.status_code ∧ r1.status_code < 300)
    (h2 : 200 ≤ r2.status_code ∧ r2.status_code < 300) :
    fsLookup (osPathJoin output_dir (design_id ++ '.' :: pyLower format))
        (download_canva_design design_id api_key output_dir format
          (download_canva_design design_id api_key output_dir format fs
            (RequestOutcome.response r1)).fs
          (RequestOutcome.response r2)).fs
      = some r2.content ∧
    (download_canva_design design_id api_key output_dir format
        (download_canva_design design_id api_key output_dir format fs
          (RequestOutcome.response r1)).fs
        (RequestOutcome.response r2)).result
      = some (osPathJoin output_dir (design_id ++ '.' :: pyLower format)) := by
  have hc2 : ¬(400 ≤ r2.status_code ∧ r2.status_code < 600) := by omega
  constructor
  · simp only [download_canva_design]
    rw [if_neg hc2]
    exact assocGet_assocSet _ _ _
  · simp only [download_canva_design]
    rw [if_neg hc2]

theorem download_twice_overwrites_witness :
    (200 ≤ 200 ∧ 200 < 300) ∧ (200 ≤ 201 ∧ 201 < 300) ∧
    (fsLookup (osPathJoin "out".toList ("ABC".toList ++ '.' :: pyLower "pdf".toList))
        (download_canva_design "ABC".toList "KEY".toList "out".toList "pdf".toList
          (download_canva_design "ABC".toList "KEY".toList "out".toList "pdf".toList
            ⟨[], []⟩ (RequestOutcome.response ⟨200, [1]⟩)).fs
          (RequestOutcome.response ⟨201, [2, 3]⟩)).fs
      = some [2, 3] ∧
    (download_canva_design "ABC".toList "KEY".toList "out".toList "pdf".toList
        (download_canva_design "ABC".toList "KEY".toList "out".toList "pdf".toList
          ⟨[], []⟩ (RequestOutcome.response ⟨200, [1]⟩)).fs
        (RequestOutcome.response ⟨201, [2, 3]⟩)).result
      = some (osPathJoin "out".toList ("ABC".toList ++ '.' :: pyLower "pdf".toList))) :=
  ⟨by decide, by decide,
   download_twice_overwrites "ABC".toList "KEY".toList "out".toList "pdf".toList
     ⟨[], []⟩ ⟨200, [1]⟩ ⟨201, [2, 3]⟩ (by decide) (by decide)⟩

/-- Claim C8 (confirmed): for every identifier, key, directory, format,
filesystem and HTTP outcome, the Design Fetcher's trace contains exactly one
HTTP request; it is a POST to the HTTPS endpoint
`https://api.canva.com/v1/designs/<identifier>/export`, its JSON body maps
`format` to the upper-cased format and `pages` to the fixed value `all`,
and it carries a `Bearer` Authorization header with the credential and an
`application/json` Content-Type header. -/
theorem download_issues_single_post
    (design_id api_key output_dir format : List Char)
    (fs : FileSystem) (http : RequestOutcome) :
    (download_canva_design design_id api_key output_dir format fs http).events.filter
        isHttpPost
      = [Event.httpPost (export_request design_id api_key format)] ∧
    export_request design_id api_key format
      = ⟨"POST".toList,
         "https://api.canva.com/v1/designs/".toList ++ design_id
           ++ "/export".toList,
         [("Authorization".toList, "Bearer ".toList ++ api_key),
          ("Content-Type".toList, "application/json".toList)],
         [("format".toList, pyUpper format), ("pages".toList, "all".toList)]⟩ :=
  ⟨download_events_filter_post design_id api_key output_dir format fs http, rfl⟩

/-- Claim C10 (confirmed): on every run — the request failing or not — the
Design Fetcher's first side effect is creating the output directory and its
second is sending the request, so the directory exists in the final
filesystem even when nothing is downloaded. -/
theorem download_creates_dir_before_request
    (design_id api_key output_dir format : List Char)
    (fs : FileSystem) (http : RequestOutcome) :
    (download_canva_design design_id api_key output_dir format fs http).events.take 2
      = [Event.makedirs output_dir,
         Event.httpPost (export_request design_id api_key format)] ∧
    output_dir ∈
      (download_canva_design design_id api_key output_dir format fs http).fs.dirs :=
  ⟨download_events_take_two design_id api_key output_dir format fs http,
   download_dir_created design_id api_key output_dir format fs http⟩

/-- Claim C9 (confirmed): the credential is the command-line flag whenever
the flag supplies a (non-empty) value — the request's Authorization header
then carries the flag's value regardless of the environment variable — and
when neither the flag nor the environment variable supplies a value, `main`
stops with the missing-credential outcome, leaving the filesystem untouched
and performing no side effect at all (in particular the Fetcher never
runs). -/
theorem main_credential_resolution (args : Args) (env : Option (List Char))
    (fs : FileSystem) (http : RequestOutcome) :
    ((args.api_key = none ∨ args.api_key = some []) →
      (env = none ∨ env = some []) →
      run_main args env fs http = (MainOutcome.missingApiKey, fs, [])) ∧
    (∀ k, args.api_key = some k → k ≠ [] →
      ∀ d, extract_design_id args.url = some d → d ≠ [] →
        (run_main args env fs http).2.2.take 2
          = [Event.makedirs args.output_dir,
             Event.httpPost (export_request d k args.format)]) := by
  constructor
  · intro hflag henv
    unfold run_main resolve_api_key
    rcases hflag with h | h <;> rw [h] <;>
      rcases henv with h2 | h2 <;> rw [h2] <;> simp
  · intro k hk hkne d hd hdne
    unfold run_main resolve_api_key
    rw [hk]
    dsimp only
    rw [if_neg hkne]
    dsimp only
    rw [if_neg hkne, hd]
    dsimp only
    rw [if_neg hdne]
    dsimp only
    exact download_events_take_two d k args.output_dir args.format fs http

theorem main_credential_resolution_witness :
    (run_main ⟨"u".toList, none, "dir".toList, "pdf".toList⟩ none ⟨[], []⟩
        RequestOutcome.connectionError
      = (MainOutcome.missingApiKey, (⟨[], []⟩ : FileSystem), [])) ∧
    ((run_main ⟨"https://www.canva.com/design/ABC/view".toList,
          some ("FLAG".toList), "dir".toList, "pdf".toList⟩
        (some ("ENV".toList)) ⟨[], []⟩
        (RequestOutcome.response ⟨200, [1]⟩)).2.2.take 2
      = [Event.makedirs "dir".toList,
         Event.httpPost (export_request "ABC".toList "FLAG".toList "pdf".toList)]) :=
  ⟨(main_credential_resolution _ _ _ _).1 (Or.inl rfl) (Or.inl rfl),
   (main_credential_resolution _ _ _ _).2 ("FLAG".toList) rfl (by decide)
     ("ABC".toList) (by decide) (by decide)⟩
